import Mathlib

/-!
# Verification of the FatPressor DSP chain

Shallow embedding of the FatPressor compressor's DSP components over `ℚ`:
the soft-knee gain computer, the two-stage optical envelope follower, the
hybrid RMS/peak sidechain detector, the tube and transformer saturation
stages, and the per-block orchestrator (`processBlock`).

Floating-point arithmetic of the C++ source is idealised as exact rational
arithmetic.  The transcendental leaves of the computation (`log10`, `10^x`,
`tanh`, `exp(-1/x)`, `sqrt`, and the biquad-coefficient formulas of the JUCE
shelving/highpass/lowpass designers) are irrational, so they are supplied as
an explicit bundle of function parameters (`RealFns`); every structural
property proved below holds for all choices of these functions, and
witnesses instantiate them with concrete rational stand-ins.
-/

set_option maxHeartbeats 1000000

/-- JUCE `jmax (a, b) = a < b ? b : a`. -/
def jmax (a b : ℚ) : ℚ := if a < b then b else a

/-- JUCE `jmin (a, b) = b < a ? b : a`. -/
def jmin (a b : ℚ) : ℚ := if b < a then b else a

/-- JUCE `jlimit (lo, hi, v) = v < lo ? lo : hi < v ? hi : v`. -/
def jlimit (lo hi v : ℚ) : ℚ := if v < lo then lo else if hi < v then hi else v

/-- C++ `static_cast<int>` on a floating value truncates toward zero. -/
def truncQ (q : ℚ) : ℤ := if 0 ≤ q then ⌊q⌋ else ⌈q⌉

/-- Biquad coefficients (normalised by `a0`), as produced by the JUCE
`IIR::Coefficients` factory functions. -/
structure BiquadCoeffs where
  b0 : ℚ := 0
  b1 : ℚ := 0
  b2 : ℚ := 0
  a1 : ℚ := 0
  a2 : ℚ := 0
deriving DecidableEq, Repr

/-- The transcendental functions used by the DSP code, abstracted as
parameters: `log10`, `x ↦ 10^x`, `tanh`, `x ↦ exp (-1/x)`, `sqrt`, and the
JUCE shelving-coefficient designers `(sampleRate, freq, Q, gain) ↦ coeffs`.
All theorems hold for every choice of these functions. -/
structure RealFns where
  log10 : ℚ → ℚ
  pow10 : ℚ → ℚ
  tanh : ℚ → ℚ
  expNegInvOf : ℚ → ℚ
  sqrtQ : ℚ → ℚ
  makeLowShelf : ℚ → ℚ → ℚ → ℚ → BiquadCoeffs
  makeHighShelf : ℚ → ℚ → ℚ → ℚ → BiquadCoeffs

/-- A concrete instantiation of the abstract transcendental functions,
used to evaluate the model on concrete inputs. -/
def zeroFns : RealFns where
  log10 := fun _ => 0
  pow10 := fun _ => 0
  tanh := fun _ => 0
  expNegInvOf := fun _ => 0
  sqrtQ := fun _ => 0
  makeLowShelf := fun _ _ _ _ => {}
  makeHighShelf := fun _ _ _ _ => {}

/-- Source: `juce::Decibels::gainToDecibels (gain, minusInfinityDb)`:
`gain > 0 ? jmax (minusInfinityDb, 20 * log10 gain) : minusInfinityDb`. -/
def gainToDecibels (L : RealFns) (minusInfinityDb gain : ℚ) : ℚ :=
  if 0 < gain then jmax minusInfinityDb (20 * L.log10 gain) else minusInfinityDb

/-- Source: `juce::Decibels::decibelsToGain (db, minusInfinityDb)`:
`db > minusInfinityDb ? 10 ^ (db / 20) : 0`. -/
def decibelsToGain (L : RealFns) (minusInfinityDb db : ℚ) : ℚ :=
  if minusInfinityDb < db then L.pow10 (db / 20) else 0

/-- Source: `juce::Decibels::decibelsToGain (db)` with the default `-100` floor. -/
def decibelsToGainDefault (L : RealFns) (db : ℚ) : ℚ :=
  decibelsToGain L (-100) db

/-- The floor `minusInfinityDb` is a lower bound of `gainToDecibels`. -/
theorem gainToDecibels_ge_floor (L : RealFns) (floorDb gain : ℚ) :
    floorDb ≤ gainToDecibels L floorDb gain := by
  unfold gainToDecibels jmax
  split
  · split <;> linarith
  · linarith

/-! ## GainComputer (src/unnamed/part_002, class `GainComputer`)

Soft-knee gain computer.  State: `threshold`, `ratio`, `kneeWidth` and the
precomputed knee bounds. -/

structure GainComputer where
  threshold : ℚ := -20
  ratio : ℚ := 4
  kneeWidth : ℚ := 6
  kneeStart : ℚ := -23
  kneeEnd : ℚ := -17
deriving DecidableEq, Repr

/-- Source: `GainComputer::updateKneeBounds`. -/
def GainComputer.updateKneeBounds (g : GainComputer) : GainComputer :=
  { g with kneeStart := g.threshold - g.kneeWidth * (1/2),
           kneeEnd := g.threshold + g.kneeWidth * (1/2) }

/-- Source: `GainComputer::setThreshold`. -/
def GainComputer.setThreshold (g : GainComputer) (thresholdDb : ℚ) : GainComputer :=
  GainComputer.updateKneeBounds { g with threshold := thresholdDb }

/-- Source: `GainComputer::setRatio`: clamps the ratio to `≥ 1`. -/
def GainComputer.setRatio (g : GainComputer) (newRatio : ℚ) : GainComputer :=
  { g with ratio := jmax 1 newRatio }

/-- Source: `GainComputer::setKneeWidth`. -/
def GainComputer.setKneeWidth (g : GainComputer) (kneeDb : ℚ) : GainComputer :=
  GainComputer.updateKneeBounds { g with kneeWidth := jmax 0 kneeDb }

/-- Source: `GainComputer::computeGainReduction`: piecewise soft-knee transfer
function, returning `outputDb - inputDb`. -/
def GainComputer.computeGainReduction (g : GainComputer) (inputDb : ℚ) : ℚ :=
  let outputDb :=
    if inputDb ≤ g.kneeStart then
      inputDb
    else if g.kneeEnd ≤ inputDb then
      g.threshold + (inputDb - g.threshold) / g.ratio
    else
      let kneePosition := (inputDb - g.kneeStart) / g.kneeWidth
      let compressionAmount := kneePosition * kneePosition * (1/2)
      let slope := 1 - 1 / g.ratio
      inputDb - slope * compressionAmount * g.kneeWidth
  outputDb - inputDb

/-- The in-knee branch of `computeGainReduction`, extracted verbatim
(gain reduction contributed by the quadratic interpolation). -/
def GainComputer.kneeGainReduction (g : GainComputer) (inputDb : ℚ) : ℚ :=
  let kneePosition := (inputDb - g.kneeStart) / g.kneeWidth
  let compressionAmount := kneePosition * kneePosition * (1/2)
  let slope := 1 - 1 / g.ratio
  (inputDb - slope * compressionAmount * g.kneeWidth) - inputDb

/-- The gain computer exactly as the plugin configures it
(`prepareToPlay`: `setThreshold`, `setRatio`, `setKneeWidth 6`). -/
def configuredGainComputer (t r : ℚ) : GainComputer :=
  (({} : GainComputer).setThreshold t |>.setRatio r).setKneeWidth 6

theorem configuredGainComputer_eq (t r : ℚ) :
    configuredGainComputer t r
      = { threshold := t, ratio := jmax 1 r, kneeWidth := 6,
          kneeStart := t - 3, kneeEnd := t + 3 } := by
  unfold configuredGainComputer GainComputer.setThreshold GainComputer.setRatio
    GainComputer.setKneeWidth GainComputer.updateKneeBounds
  norm_num [jmax]

theorem one_le_jmax_one (r : ℚ) : 1 ≤ jmax 1 r := by
  unfold jmax; split <;> linarith

/-- C1: for every input level at or above `threshold + 3` (knee width fixed
at 6 dB), `computeGainReduction` returns
`(threshold + (inputDb - threshold) / ratio) - inputDb`, whose magnitude is
exactly `(inputDb - threshold) * (1 - 1 / ratio)`, where `ratio` is the
value clamped to `≥ 1` by `setRatio`. -/
theorem gainComputer_above_knee (t r x : ℚ) (h : t + 3 ≤ x) :
    (configuredGainComputer t r).computeGainReduction x
        = (t + (x - t) / jmax 1 r) - x
    ∧ |(configuredGainComputer t r).computeGainReduction x|
        = (x - t) * (1 - 1 / jmax 1 r) := by
  have hR : 1 ≤ jmax 1 r := one_le_jmax_one r
  have hRpos : 0 < jmax 1 r := by linarith
  have hval : (configuredGainComputer t r).computeGainReduction x
      = (t + (x - t) / jmax 1 r) - x := by
    rw [configuredGainComputer_eq]
    unfold GainComputer.computeGainReduction
    have h1 : ¬ x ≤ t - 3 := by linarith
    simp only [h1, h, if_true, if_false, if_pos, if_neg, not_false_iff]
  refine ⟨hval, ?_⟩
  rw [hval]
  have hval2 : (t + (x - t) / jmax 1 r) - x = -((x - t) * (1 - 1 / jmax 1 r)) := by
    field_simp
    ring
  rw [hval2, abs_neg, abs_of_nonneg]
  apply mul_nonneg
  · linarith
  · have : 1 / jmax 1 r ≤ 1 := by
      rw [div_le_one hRpos]; exact hR
    linarith

/-- Witness for C1 at `threshold = -20`, `ratio = 4`, `input = -10`. -/
theorem gainComputer_above_knee_witness :
    (configuredGainComputer (-20) 4).computeGainReduction (-10)
        = ((-20) + ((-10) - (-20)) / jmax 1 4) - (-10)
    ∧ |(configuredGainComputer (-20) 4).computeGainReduction (-10)|
        = ((-10) - (-20)) * (1 - 1 / jmax 1 4) :=
  gainComputer_above_knee (-20) 4 (-10) (by norm_num)

/-- C2: for every input level strictly below `threshold - 3` (knee width
fixed at 6 dB), `computeGainReduction` returns exactly `0`, for every
threshold and every ratio. -/
theorem gainComputer_below_knee (t r x : ℚ) (h : x < t - 3) :
    (configuredGainComputer t r).computeGainReduction x = 0 := by
  rw [configuredGainComputer_eq]
  unfold GainComputer.computeGainReduction
  have h1 : x ≤ t - 3 := le_of_lt h
  simp only [h1, if_true, if_pos]
  ring

/-- Witness for C2 at `threshold = -20`, `ratio = 4`, `input = -30`. -/
theorem gainComputer_below_knee_witness :
    (configuredGainComputer (-20) 4).computeGainReduction (-30) = 0 :=
  gainComputer_below_knee (-20) 4 (-30) (by norm_num)

/-- C3: the piecewise transfer function is continuous across both knee
boundaries: the in-knee quadratic branch agrees with the below-knee branch
(`0`) at `kneeStart = threshold - 3` and with the above-knee branch
`threshold + (x - threshold) / ratio - x` at `kneeEnd = threshold + 3`,
for every threshold and every (clamped, hence `≥ 1`) ratio; moreover the
extracted in-knee branch is exactly what `computeGainReduction` evaluates
strictly inside the knee. -/
theorem gainComputer_knee_continuity (t r : ℚ) :
    (configuredGainComputer t r).kneeGainReduction
        (configuredGainComputer t r).kneeStart = 0
    ∧ (configuredGainComputer t r).kneeGainReduction
        (configuredGainComputer t r).kneeEnd
      = ((configuredGainComputer t r).threshold
          + ((configuredGainComputer t r).kneeEnd
              - (configuredGainComputer t r).threshold)
            / (configuredGainComputer t r).ratio)
        - (configuredGainComputer t r).kneeEnd
    ∧ ∀ x : ℚ, (configuredGainComputer t r).kneeStart < x →
        x < (configuredGainComputer t r).kneeEnd →
        (configuredGainComputer t r).computeGainReduction x
          = (configuredGainComputer t r).kneeGainReduction x := by
  have hR : 1 ≤ jmax 1 r := one_le_jmax_one r
  have hRpos : 0 < jmax 1 r := by linarith
  have hRne : jmax 1 r ≠ 0 := ne_of_gt hRpos
  rw [configuredGainComputer_eq]
  refine ⟨?_, ?_, ?_⟩
  · unfold GainComputer.kneeGainReduction
    simp only
    ring
  · unfold GainComputer.kneeGainReduction
    simp only
    field_simp
    ring
  · intro x hlo hhi
    simp only at hlo hhi
    unfold GainComputer.computeGainReduction GainComputer.kneeGainReduction
    have h1 : ¬ x ≤ t - 3 := by linarith
    have h2 : ¬ t + 3 ≤ x := by linarith
    simp only [h1, h2, if_false, if_neg, not_false_iff]

/-- Witness for C3: the in-knee branch agrees with `computeGainReduction`
at `x = -20` strictly inside the knee for `threshold = -20`, `ratio = 4`. -/
theorem gainComputer_knee_continuity_witness :
    (configuredGainComputer (-20) 4).computeGainReduction (-20)
      = (configuredGainComputer (-20) 4).kneeGainReduction (-20) :=
  (gainComputer_knee_continuity (-20) 4).2.2 (-20)
    (by norm_num [configuredGainComputer_eq]) (by norm_num [configuredGainComputer_eq])

/-! ## SidechainDetector (src/src/dsp/SidechainDetector.h)

Hybrid RMS/peak detector.  The RMS window is a circular buffer of squared
samples with a running sum.  `prepare` resizes the buffer with C++
`std::vector::resize (n, 0.0f)`, which keeps existing elements and only
zero-fills newly appended ones. -/

/-- Source: `std::vector::resize (n, v)`: keeps the first `n` existing elements,
appends copies of `v` if the vector grows. -/
def listResize (l : List ℚ) (n : ℕ) (v : ℚ) : List ℚ :=
  l.take n ++ List.replicate (n - l.length) v

structure SidechainDetector where
  sampleRate : ℚ := 44100
  rmsBuffer : List ℚ := []
  rmsWindowSize : ℕ := 441
  rmsWriteIndex : ℕ := 0
  rmsSum : ℚ := 0
  peakAttackCoeff : ℚ := 0
  peakReleaseCoeff : ℚ := 0
  peakEnvelope : ℚ := 0
  rmsWeight : ℚ := 7/10
  peakWeight : ℚ := 3/10
deriving DecidableEq, Repr

/-- Source: `SidechainDetector::prepare`: window size `max 1 (int (rate * 0.01))`,
buffer resized (not cleared), indices/sum/peak zeroed, peak coefficients
`exp (-1 / (rate * 0.0001))` and `exp (-1 / (rate * 0.05))`. -/
def SidechainDetector.prepare (L : RealFns) (d : SidechainDetector)
    (newSampleRate : ℚ) : SidechainDetector :=
  let n := max 1 (truncQ (newSampleRate * (1/100))).toNat
  { d with
      sampleRate := newSampleRate,
      rmsWindowSize := n,
      rmsBuffer := listResize d.rmsBuffer n 0,
      rmsWriteIndex := 0,
      rmsSum := 0,
      peakAttackCoeff := L.expNegInvOf (newSampleRate * (1/10000)),
      peakReleaseCoeff := L.expNegInvOf (newSampleRate * (1/20)),
      peakEnvelope := 0 }

/-- Source: `SidechainDetector::reset`: zero-fills the buffer in place. -/
def SidechainDetector.reset (d : SidechainDetector) : SidechainDetector :=
  { d with
      rmsBuffer := List.replicate d.rmsBuffer.length 0,
      rmsWriteIndex := 0,
      rmsSum := 0,
      peakEnvelope := 0 }

/-- Source: `SidechainDetector::processSample`: returns the updated detector state
and the hybrid detection level in dB. -/
def SidechainDetector.processSample (L : RealFns) (d : SidechainDetector)
    (inputL inputRight : ℚ) : SidechainDetector × ℚ :=
  let monoInput := (inputL + inputRight) * (1/2)
  let inputSquared := monoInput * monoInput
  let inputAbs := |monoInput|
  let rmsSum1 := d.rmsSum - d.rmsBuffer.getD d.rmsWriteIndex 0
  let buf := d.rmsBuffer.set d.rmsWriteIndex inputSquared
  let rmsSum2 := rmsSum1 + inputSquared
  let nextIndex := (d.rmsWriteIndex + 1) % d.rmsWindowSize
  let rmsLevel := L.sqrtQ (rmsSum2 / (d.rmsWindowSize : ℚ))
  let peakEnv :=
    if d.peakEnvelope < inputAbs then
      d.peakAttackCoeff * d.peakEnvelope + (1 - d.peakAttackCoeff) * inputAbs
    else
      d.peakReleaseCoeff * d.peakEnvelope
  let hybridLevel := rmsLevel * d.rmsWeight + peakEnv * d.peakWeight
  ({ d with rmsBuffer := buf, rmsSum := rmsSum2, rmsWriteIndex := nextIndex,
            peakEnvelope := peakEnv },
   gainToDecibels L (-60) hybridLevel)

/-- Runs `processSample` over a list of stereo input samples. -/
def SidechainDetector.processList (L : RealFns) :
    SidechainDetector → List (ℚ × ℚ) → SidechainDetector
  | d, [] => d
  | d, (a, b) :: rest => SidechainDetector.processList L (d.processSample L a b).1 rest

/-- C5 (code bug): re-preparing the detector does NOT clear the RMS window
buffer.  Prepared at 100 Hz (window = 1), feeding one sample of value 2
stores 4 in the window; re-preparing at 200 Hz leaves the stale squared
sample in the buffer (`[4, 0]`) while zeroing the running sum, so the state
claimed by the spec (`buffer all zero`) does not hold, and one further
silent sample drives the running sum negative (`sqrt` of a negative number
in the C++ code). -/
theorem sidechainDetector_prepare_keeps_stale_buffer :
    ((((({} : SidechainDetector).prepare zeroFns 100).processSample
        zeroFns 2 2).1).prepare zeroFns 200).rmsBuffer = [4, 0]
    ∧ ((((({} : SidechainDetector).prepare zeroFns 100).processSample
        zeroFns 2 2).1).prepare zeroFns 200).rmsSum = 0
    ∧ ((((({} : SidechainDetector).prepare zeroFns 100).processSample
        zeroFns 2 2).1).prepare zeroFns 200).peakEnvelope = 0
    ∧ ¬ (∀ x ∈ ((((({} : SidechainDetector).prepare zeroFns 100).processSample
        zeroFns 2 2).1).prepare zeroFns 200).rmsBuffer, x = 0)
    ∧ (((((({} : SidechainDetector).prepare zeroFns 100).processSample
        zeroFns 2 2).1).prepare zeroFns 200).processSample zeroFns 0 0).1.rmsSum
        = -4 := by
  refine ⟨?_, ?_, ?_, ?_, ?_⟩ <;>
    norm_num [SidechainDetector.prepare, SidechainDetector.processSample,
      listResize, truncQ, zeroFns, jmax, gainToDecibels]
  all_goals simp

/-- The internal consistency invariant of the RMS window: the buffer has
exactly `rmsWindowSize` entries, the write index is in range, the running
sum is the sum of the buffer entries, and every entry is non-negative. -/
def DetectorInv (d : SidechainDetector) : Prop :=
  d.rmsBuffer.length = d.rmsWindowSize
  ∧ 0 < d.rmsWindowSize
  ∧ d.rmsWriteIndex < d.rmsWindowSize
  ∧ d.rmsSum = d.rmsBuffer.sum
  ∧ ∀ x ∈ d.rmsBuffer, 0 ≤ x

theorem sum_set_eq (l : List ℚ) (v : ℚ) :
    ∀ i : ℕ, i < l.length → (l.set i v).sum = l.sum - l.getD i 0 + v := by
  induction l with
  | nil => intro i hi; simp at hi
  | cons a t ih =>
      intro i hi
      cases i with
      | zero => simp [List.set]; ring
      | succ j =>
          have hj : j < t.length := by simpa using hi
          simp [List.set, ih j hj]
          ring

theorem detectorInv_processSample (L : RealFns) (d : SidechainDetector)
    (a b : ℚ) (h : DetectorInv d) : DetectorInv ((d.processSample L a b).1) := by
  obtain ⟨hlen, hpos, hidx, hsum, hnn⟩ := h
  have hidx' : d.rmsWriteIndex < d.rmsBuffer.length := by rw [hlen]; exact hidx
  refine ⟨?_, ?_, ?_, ?_, ?_⟩
  · simpa [SidechainDetector.processSample] using hlen
  · simpa [SidechainDetector.processSample] using hpos
  · simp only [SidechainDetector.processSample]
    exact Nat.mod_lt _ hpos
  · simp only [SidechainDetector.processSample]
    rw [sum_set_eq _ _ _ hidx', hsum]
  · simp only [SidechainDetector.processSample]
    intro x hx
    rcases List.mem_or_eq_of_mem_set hx with hmem | hv
    · exact hnn x hmem
    · rw [hv]; exact mul_self_nonneg _

theorem detectorInv_processList (L : RealFns) :
    ∀ (inputs : List (ℚ × ℚ)) (d : SidechainDetector), DetectorInv d →
      DetectorInv (d.processList L inputs) := by
  intro inputs
  induction inputs with
  | nil => intro d h; exact h
  | cons p rest ih =>
      intro d h
      cases p with
      | mk a b =>
          exact ih _ (detectorInv_processSample L d a b h)

theorem detectorInv_prepare_initial (L : RealFns) (rate : ℚ) :
    DetectorInv (({} : SidechainDetector).prepare L rate) := by
  refine ⟨?_, ?_, ?_, ?_, ?_⟩
  · simp [SidechainDetector.prepare, listResize]
  · simp [SidechainDetector.prepare]
  · simp [SidechainDetector.prepare]
  · simp [SidechainDetector.prepare, listResize, List.sum_replicate]
  · simp only [SidechainDetector.prepare, listResize, List.take_nil,
      List.nil_append]
    intro x hx
    simp [List.eq_of_mem_replicate hx]

theorem detectorInv_reset (d : SidechainDetector)
    (hlen : d.rmsBuffer.length = d.rmsWindowSize) (hpos : 0 < d.rmsWindowSize) :
    DetectorInv d.reset := by
  refine ⟨?_, ?_, ?_, ?_, ?_⟩
  · simpa [SidechainDetector.reset] using hlen
  · simpa [SidechainDetector.reset] using hpos
  · simpa [SidechainDetector.reset] using hpos
  · simp [SidechainDetector.reset, List.sum_replicate]
  · simp only [SidechainDetector.reset]
    intro x hx
    rw [List.eq_of_mem_replicate hx]

/-- C10: starting from a detector satisfying the window invariant — which a
fresh `prepare` (from the default-constructed state) establishes, as does
`reset` of any state whose buffer length matches its window size — any
sequence of `processSample` calls preserves it: the running sum equals the
sum of the window entries, every entry is non-negative (a squared sample),
and hence the argument `rmsSum / rmsWindowSize` of the square root in the
RMS computation is non-negative. -/
theorem sidechainDetector_rms_invariant (L : RealFns) (rate : ℚ)
    (d e : SidechainDetector) (inputs : List (ℚ × ℚ))
    (hd : DetectorInv d)
    (he : e.rmsBuffer.length = e.rmsWindowSize ∧ 0 < e.rmsWindowSize) :
    DetectorInv (({} : SidechainDetector).prepare L rate)
    ∧ DetectorInv e.reset
    ∧ DetectorInv (d.processList L inputs)
    ∧ (d.processList L inputs).rmsSum = (d.processList L inputs).rmsBuffer.sum
    ∧ (∀ x ∈ (d.processList L inputs).rmsBuffer, 0 ≤ x)
    ∧ 0 ≤ (d.processList L inputs).rmsSum
          / ((d.processList L inputs).rmsWindowSize : ℚ) := by
  have hrun := detectorInv_processList L inputs d hd
  obtain ⟨hlen, hpos, hidx, hsum, hnn⟩ := hrun
  refine ⟨detectorInv_prepare_initial L rate, detectorInv_reset e he.1 he.2,
    ⟨hlen, hpos, hidx, hsum, hnn⟩, hsum, hnn, ?_⟩
  apply div_nonneg
  · rw [hsum]
    exact List.sum_nonneg hnn
  · exact_mod_cast Nat.zero_le _

/-- Witness for C10 at a freshly prepared detector (100 Hz) fed one stereo
sample `(1, 2)`. -/
theorem sidechainDetector_rms_invariant_witness :
    0 ≤ ((({} : SidechainDetector).prepare zeroFns 100).processList
          zeroFns [(1, 2)]).rmsSum
        / (((({} : SidechainDetector).prepare zeroFns 100).processList
          zeroFns [(1, 2)]).rmsWindowSize : ℚ) :=
  (sidechainDetector_rms_invariant zeroFns 100
    (({} : SidechainDetector).prepare zeroFns 100)
    (({} : SidechainDetector).prepare zeroFns 100) [(1, 2)]
    (detectorInv_prepare_initial zeroFns 100)
    ⟨by norm_num [SidechainDetector.prepare, listResize, truncQ],
     by norm_num [SidechainDetector.prepare, truncQ]⟩).2.2.2.2.2

/-! ## EnvelopeFollower (src/unnamed/part_002, class `EnvelopeFollower`)

Optical-style envelope follower with two-stage release.  The envelope is
tracked in linear gain; release uses a fast coefficient (30 % of the release
time) until the envelope falls below 50 % of the recorded peak, then a slow
coefficient (150 % of the release time) until the next attack. -/

structure EnvelopeFollower where
  sampleRate : ℚ := 44100
  attackTimeMs : ℚ := 10
  releaseTimeMs : ℚ := 100
  envelope : ℚ := 0
  peakGainReduction : ℚ := 0
  inSlowRelease : Bool := false
  attackCoeff : ℚ := 0
  releaseCoeffFast : ℚ := 0
  releaseCoeffSlow : ℚ := 0
deriving DecidableEq, Repr

/-- Source: `releaseStageThreshold = 0.5f`: switch to slow release at 50 % of peak. -/
def releaseStageThreshold : ℚ := 1/2

/-- Source: `EnvelopeFollower::updateCoefficients`: recomputes the three one-pole
coefficients `exp (-1 / (sampleRate * t))`; skipped when `sampleRate ≤ 0`. -/
def EnvelopeFollower.updateCoefficients (L : RealFns) (e : EnvelopeFollower) :
    EnvelopeFollower :=
  if e.sampleRate ≤ 0 then e
  else
    { e with
        attackCoeff := L.expNegInvOf (e.sampleRate * (e.attackTimeMs / 1000)),
        releaseCoeffFast :=
          L.expNegInvOf (e.sampleRate * (e.releaseTimeMs / 1000 * (3/10))),
        releaseCoeffSlow :=
          L.expNegInvOf (e.sampleRate * (e.releaseTimeMs / 1000 * (3/2))) }

/-- Source: `EnvelopeFollower::reset`. -/
def EnvelopeFollower.reset (e : EnvelopeFollower) : EnvelopeFollower :=
  { e with envelope := 0, peakGainReduction := 0, inSlowRelease := false }

/-- Source: `EnvelopeFollower::prepare`. -/
def EnvelopeFollower.prepare (L : RealFns) (e : EnvelopeFollower)
    (newSampleRate : ℚ) : EnvelopeFollower :=
  (EnvelopeFollower.updateCoefficients L { e with sampleRate := newSampleRate }).reset

/-- Source: `EnvelopeFollower::setAttackMs`: clamps to `[0.1, 100]` ms. -/
def EnvelopeFollower.setAttackMs (L : RealFns) (e : EnvelopeFollower)
    (attackMs : ℚ) : EnvelopeFollower :=
  EnvelopeFollower.updateCoefficients L
    { e with attackTimeMs := jlimit (1/10) 100 attackMs }

/-- Source: `EnvelopeFollower::setReleaseMs`: clamps to `[10, 1000]` ms. -/
def EnvelopeFollower.setReleaseMs (L : RealFns) (e : EnvelopeFollower)
    (releaseMs : ℚ) : EnvelopeFollower :=
  EnvelopeFollower.updateCoefficients L
    { e with releaseTimeMs := jlimit 10 1000 releaseMs }

/-- In the release branch the code first decides the stage
(`!inSlowRelease && envelope < peak * 0.5` switches to slow), then selects
the coefficient from the updated flag; the selected stage is therefore
`inSlowRelease || envelope < peak * 0.5`. -/
def EnvelopeFollower.releaseGoesSlow (e : EnvelopeFollower) : Bool :=
  e.inSlowRelease
    || decide (e.envelope < e.peakGainReduction * releaseStageThreshold)

/-- The release coefficient actually applied by the release branch. -/
def EnvelopeFollower.releaseCoeffUsed (e : EnvelopeFollower) : ℚ :=
  if e.releaseGoesSlow then e.releaseCoeffSlow else e.releaseCoeffFast

/-- Source: `EnvelopeFollower::processSample`: converts the detection dB to linear,
runs the attack or two-stage release one-pole update and returns the new
state together with the envelope in dB. -/
def EnvelopeFollower.processSample (L : RealFns) (e : EnvelopeFollower)
    (detectionDb : ℚ) : EnvelopeFollower × ℚ :=
  let detectionLinear := decibelsToGain L (-60) detectionDb
  if e.envelope < detectionLinear then
    let env := e.attackCoeff * e.envelope + (1 - e.attackCoeff) * detectionLinear
    ({ e with envelope := env, peakGainReduction := env, inSlowRelease := false },
     gainToDecibels L (-60) env)
  else
    let env := e.releaseCoeffUsed * e.envelope
                 + (1 - e.releaseCoeffUsed) * detectionLinear
    ({ e with envelope := env, inSlowRelease := e.releaseGoesSlow },
     gainToDecibels L (-60) env)

/-- The state after one `processSample` call. -/
def EnvelopeFollower.stepState (L : RealFns) (e : EnvelopeFollower)
    (detectionDb : ℚ) : EnvelopeFollower :=
  (e.processSample L detectionDb).1

/-- Whether a detection input triggers the attack branch from state `e`
(the linear detection input exceeds the current envelope). -/
def EnvelopeFollower.isAttackInput (L : RealFns) (e : EnvelopeFollower)
    (detectionDb : ℚ) : Bool :=
  decide (e.envelope < decibelsToGain L (-60) detectionDb)

/-- The trace of states (before each sample, plus the final state) reached
while processing a list of detection inputs. -/
def EnvelopeFollower.runStates (L : RealFns) :
    EnvelopeFollower → List ℚ → List EnvelopeFollower
  | e, [] => [e]
  | e, d :: ds => e :: EnvelopeFollower.runStates L (e.stepState L d) ds

/-- Every sample in the list is processed by the release branch. -/
def EnvelopeFollower.isReleaseRun (L : RealFns) :
    EnvelopeFollower → List ℚ → Bool
  | _, [] => true
  | e, d :: ds =>
      !(e.isAttackInput L d) && EnvelopeFollower.isReleaseRun L (e.stepState L d) ds

/-- The `inSlowRelease` flags along a run. -/
def slowFlags (L : RealFns) (e : EnvelopeFollower) (ds : List ℚ) : List Bool :=
  (EnvelopeFollower.runStates L e ds).map EnvelopeFollower.inSlowRelease

/-- Number of `false → true` transitions between adjacent elements. -/
def countFlips : List Bool → ℕ
  | [] => 0
  | [_] => 0
  | a :: b :: t => (if a = false ∧ b = true then 1 else 0) + countFlips (b :: t)

theorem runStates_cons (L : RealFns) (e : EnvelopeFollower) (d : ℚ)
    (ds : List ℚ) :
    EnvelopeFollower.runStates L e (d :: ds)
      = e :: EnvelopeFollower.runStates L (e.stepState L d) ds := rfl

theorem slowFlags_head (L : RealFns) (e : EnvelopeFollower) (ds : List ℚ) :
    (slowFlags L e ds).head? = some e.inSlowRelease := by
  cases ds <;> rfl

theorem stepState_release_inSlow (L : RealFns) (e : EnvelopeFollower) (d : ℚ)
    (h : e.isAttackInput L d = false) :
    (e.stepState L d).inSlowRelease = e.releaseGoesSlow := by
  have h' : ¬ e.envelope < decibelsToGain L (-60) d := by
    simpa [EnvelopeFollower.isAttackInput] using h
  simp [EnvelopeFollower.stepState, EnvelopeFollower.processSample, h']

theorem stepState_attack_inSlow (L : RealFns) (e : EnvelopeFollower) (d : ℚ)
    (h : e.isAttackInput L d = true) :
    (e.stepState L d).inSlowRelease = false := by
  have h' : e.envelope < decibelsToGain L (-60) d := by
    simpa [EnvelopeFollower.isAttackInput] using h
  simp [EnvelopeFollower.stepState, EnvelopeFollower.processSample, h']

theorem slowFlags_chain (L : RealFns) :
    ∀ (ds : List ℚ) (e : EnvelopeFollower),
      EnvelopeFollower.isReleaseRun L e ds = true →
      List.Chain' (fun a b : Bool => a = true → b = true) (slowFlags L e ds) := by
  intro ds
  induction ds with
  | nil => intro e _; simp [slowFlags, EnvelopeFollower.runStates]
  | cons d ds ih =>
      intro e h
      rw [EnvelopeFollower.isReleaseRun, Bool.and_eq_true] at h
      obtain ⟨h1, h2⟩ := h
      have h1' : e.isAttackInput L d = false := by
        cases hx : e.isAttackInput L d <;> simp [hx] at h1 ⊢
      have hchain := ih (e.stepState L d) h2
      have hstep : e.inSlowRelease = true → (e.stepState L d).inSlowRelease = true := by
        intro hs
        rw [stepState_release_inSlow L e d h1', EnvelopeFollower.releaseGoesSlow, hs]
        simp
      rw [slowFlags, runStates_cons, List.map_cons]
      rw [List.chain'_cons']
      constructor
      · intro y hy
        rw [show (EnvelopeFollower.runStates L (e.stepState L d) ds).map
              EnvelopeFollower.inSlowRelease = slowFlags L (e.stepState L d) ds from rfl,
            slowFlags_head] at hy
        simp at hy
        rw [← hy]
        exact hstep
      · exact hchain

theorem countFlips_head_true :
    ∀ l : List Bool, List.Chain' (fun a b : Bool => a = true → b = true) l →
      l.head? = some true → countFlips l = 0 := by
  intro l
  induction l with
  | nil => intro _ h; simp at h
  | cons a t ih =>
      intro hc hh
      have ha : a = true := by simpa using hh
      cases t with
      | nil => simp [countFlips]
      | cons b t' =>
          rw [List.chain'_cons] at hc
          have hb : b = true := hc.1 ha
          rw [countFlips]
          rw [ih hc.2 (by simpa using hb)]
          simp [ha]

theorem countFlips_chain_le_one :
    ∀ l : List Bool, List.Chain' (fun a b : Bool => a = true → b = true) l →
      countFlips l ≤ 1 := by
  intro l
  induction l with
  | nil => intro _; simp [countFlips]
  | cons a t ih =>
      intro hc
      cases t with
      | nil => simp [countFlips]
      | cons b t' =>
          rw [List.chain'_cons] at hc
          rw [countFlips]
          by_cases hb : b = true
          · rw [countFlips_head_true (b :: t') hc.2 (by simpa using hb)]
            split <;> simp
          · have : ¬ (a = false ∧ b = true) := fun hab => hb hab.2
            rw [if_neg this]
            simpa using ih hc.2

/-- C4: along any run of release samples (each detection input not above
the current envelope) the `inSlowRelease` flag is monotone (never reverts
to the fast stage) and flips from fast to slow at most once; one release
step switches the stage exactly when the flag is not yet set and the
envelope has fallen below 50 % of the recorded peak
(`inSlowRelease || envelope < peak * releaseStageThreshold`); once the
flag is set, the coefficient the release branch applies is the slow one;
and the flag can only return to `false` through an attack sample (linear
detection input exceeding the envelope). -/
theorem envelopeFollower_two_stage_release (L : RealFns) (e : EnvelopeFollower)
    (ds : List ℚ) (h : EnvelopeFollower.isReleaseRun L e ds = true) :
    List.Chain' (fun a b : Bool => a = true → b = true) (slowFlags L e ds)
    ∧ countFlips (slowFlags L e ds) ≤ 1
    ∧ (∀ (t : EnvelopeFollower) (d : ℚ), t.isAttackInput L d = false →
        (t.stepState L d).inSlowRelease
          = (t.inSlowRelease
              || decide (t.envelope < t.peakGainReduction * releaseStageThreshold))
        ∧ (t.inSlowRelease = true → t.releaseCoeffUsed = t.releaseCoeffSlow))
    ∧ (∀ (t : EnvelopeFollower) (d : ℚ), t.inSlowRelease = true →
        (t.stepState L d).inSlowRelease = false → t.isAttackInput L d = true) := by
  have hchain := slowFlags_chain L ds e h
  refine ⟨hchain, countFlips_chain_le_one _ hchain, ?_, ?_⟩
  · intro t d ht
    refine ⟨?_, ?_⟩
    · rw [stepState_release_inSlow L t d ht, EnvelopeFollower.releaseGoesSlow]
    · intro hs
      rw [EnvelopeFollower.releaseCoeffUsed, EnvelopeFollower.releaseGoesSlow, hs]
      simp
  · intro t d hs hrev
    cases ha : t.isAttackInput L d with
    | true => rfl
    | false =>
        exfalso
        rw [stepState_release_inSlow L t d ha, EnvelopeFollower.releaseGoesSlow,
          hs] at hrev
        simp at hrev

/-- Witness for C4: a two-sample release run from an envelope at `1` with
recorded peak `1` (silent input, fast coefficient `1/2`): the first step
keeps the fast stage, the second as well since the envelope is exactly at
half the peak. -/
theorem envelopeFollower_two_stage_release_witness :
    countFlips (slowFlags zeroFns
      { envelope := 1, peakGainReduction := 1, inSlowRelease := false,
        attackCoeff := 0, releaseCoeffFast := 1/2, releaseCoeffSlow := 1/4 }
      [-70, -70]) ≤ 1 :=
  (envelopeFollower_two_stage_release zeroFns
    { envelope := 1, peakGainReduction := 1, inSlowRelease := false,
      attackCoeff := 0, releaseCoeffFast := 1/2, releaseCoeffSlow := 1/4 }
    [-70, -70]
    (by norm_num [EnvelopeFollower.isReleaseRun, EnvelopeFollower.isAttackInput,
      EnvelopeFollower.stepState, EnvelopeFollower.processSample,
      EnvelopeFollower.releaseGoesSlow, EnvelopeFollower.releaseCoeffUsed,
      releaseStageThreshold, decibelsToGain, zeroFns])).2.1

/-! ## Biquad filters (juce::dsp::IIR::Filter, direct form II transposed)

Each `ProcessorDuplicator` in the C++ code holds one mono IIR filter per
channel sharing one coefficient set; we model each channel's filter as a
`Biquad` (coefficients plus the two transposed-direct-form-II state
variables). -/

structure Biquad where
  coeffs : BiquadCoeffs := {}
  s1 : ℚ := 0
  s2 : ℚ := 0
deriving DecidableEq, Repr

/-- One sample through a transposed direct form II biquad:
`y = b0 x + s1; s1 ← b1 x - a1 y + s2; s2 ← b2 x - a2 y`. -/
def Biquad.step (b : Biquad) (x : ℚ) : Biquad × ℚ :=
  let y := b.coeffs.b0 * x + b.s1
  ({ b with s1 := b.coeffs.b1 * x - b.coeffs.a1 * y + b.s2,
            s2 := b.coeffs.b2 * x - b.coeffs.a2 * y }, y)

/-- A whole channel through a biquad (JUCE `process` on one channel). -/
def Biquad.processList : Biquad → List ℚ → Biquad × List ℚ
  | b, [] => (b, [])
  | b, x :: xs =>
      let p := b.step x
      let q := Biquad.processList p.1 xs
      (q.1, p.2 :: q.2)

/-- The recursive filter state (excluding coefficients). -/
def Biquad.state (b : Biquad) : ℚ × ℚ := (b.s1, b.s2)

theorem Biquad.processList_length (b : Biquad) (xs : List ℚ) :
    (b.processList xs).2.length = xs.length := by
  induction xs generalizing b with
  | nil => rfl
  | cons x xs ih => simp [Biquad.processList, ih]

/-- Shared soft-saturation curve `x / (1 + |x| * amount)` used by both
saturation stages. -/
def softSaturate (x amount : ℚ) : ℚ := x / (1 + |x| * amount)

/-! ## TubeSaturation (src/src/dsp/TubeSaturation.h)

Pre-compression tube stage: multiband split (lowpass 800 Hz / highpass
600 Hz), asymmetric waveshaping of the low band only, recombination with a
lightly attenuated high band, and a 5 Hz DC blocker. -/

structure TubeSaturation where
  sampleRate : ℚ := 44100
  drive : ℚ := 0
  driveScaled : ℚ := 1
  dcBlockerL : Biquad := {}
  dcBlockerR : Biquad := {}
  lowpassForSatL : Biquad := {}
  lowpassForSatR : Biquad := {}
  highpassForCleanL : Biquad := {}
  highpassForCleanR : Biquad := {}
deriving DecidableEq, Repr

/-- Source: `TubeSaturation::setDrive`: clamps to `[0, 1]`. -/
def TubeSaturation.setDrive (t : TubeSaturation) (driveAmount : ℚ) :
    TubeSaturation :=
  let d := jlimit 0 1 driveAmount
  { t with drive := d, driveScaled := 1 + d * 3 }

/-- Source: `TubeSaturation::processSample`: the per-sample asymmetric waveshaper
(tanh core, asymmetric quadratic term for negative excursions, even
harmonic `input * |input|`, soft saturation, gain compensation, wet/dry by
`drive`). -/
def TubeSaturation.processSample (L : RealFns) (t : TubeSaturation)
    (input : ℚ) : ℚ :=
  if t.drive < 1/1000 then input
  else
    let x := input * (1 + t.drive * (3/2))
    let tanhInput := L.tanh (x * (4/5))
    let asymmetry := if x < 0 then x * |x| * (2/25) * t.drive else 0
    let output1 := tanhInput + asymmetry
    let harmonic := input * |input| * (3/20) * t.drive
    let output2 := output1 + harmonic
    let output3 := softSaturate output2 ((3/10) + t.drive * (1/2))
    let output4 := output3 * ((17/20) / (1 + t.drive * (3/10)))
    input * (1 - t.drive) + output4 * t.drive

/-- Source: `TubeSaturation::processBlock`: bypass below `drive = 0.001`; otherwise
multiband split, low-band saturation, recombination
`low + high * (1 - drive * 0.3)` and DC blocking. -/
def TubeSaturation.processBlock (L : RealFns) (t : TubeSaturation)
    (buffer : List (ℚ × ℚ)) : TubeSaturation × List (ℚ × ℚ) :=
  if t.drive < 1/1000 then (t, buffer)
  else
    let left := buffer.map Prod.fst
    let right := buffer.map Prod.snd
    let lp1 := t.lowpassForSatL.processList left
    let lp2 := t.lowpassForSatR.processList right
    let hp1 := t.highpassForCleanL.processList left
    let hp2 := t.highpassForCleanR.processList right
    let satL := lp1.2.map (fun v => t.processSample L v)
    let satR := lp2.2.map (fun v => t.processSample L v)
    let combL := List.zipWith (fun lo hi => lo + hi * (1 - t.drive * (3/10))) satL hp1.2
    let combR := List.zipWith (fun lo hi => lo + hi * (1 - t.drive * (3/10))) satR hp2.2
    let dc1 := t.dcBlockerL.processList combL
    let dc2 := t.dcBlockerR.processList combR
    ({ t with lowpassForSatL := lp1.1, lowpassForSatR := lp2.1,
              highpassForCleanL := hp1.1, highpassForCleanR := hp2.1,
              dcBlockerL := dc1.1, dcBlockerR := dc2.1 },
     dc1.2.zip dc2.2)

/-! ## TransformerColoration (src/unnamed/part_002, class
`TransformerColoration`)

Post-compression transformer stage: per-sample soft saturation with a
cubic odd-harmonic term, then low-shelf (120 Hz) and high-shelf (8 kHz)
EQ whose gains scale with the color amount. -/

structure TransformerColoration where
  sampleRate : ℚ := 44100
  colorAmount : ℚ := 0
  lowShelfL : Biquad := {}
  lowShelfR : Biquad := {}
  highShelfL : Biquad := {}
  highShelfR : Biquad := {}
deriving DecidableEq, Repr

/-- Source: `TransformerColoration::setAmount`: clamps to `[0, 1]` and recomputes
both shelving-filter coefficient sets (low shelf up to +3 dB at 120 Hz,
high shelf down to −1.5 dB at 8 kHz); the filters' recursive state is
untouched. -/
def TransformerColoration.setAmount (L : RealFns) (tr : TransformerColoration)
    (amount : ℚ) : TransformerColoration :=
  let c := jlimit 0 1 amount
  let lowGain := decibelsToGainDefault L (c * 3)
  let highGain := decibelsToGainDefault L (-(c * (3/2)))
  let lowCo := L.makeLowShelf tr.sampleRate 120 (1/2) lowGain
  let highCo := L.makeHighShelf tr.sampleRate 8000 (1/2) highGain
  { tr with colorAmount := c,
            lowShelfL := { tr.lowShelfL with coeffs := lowCo },
            lowShelfR := { tr.lowShelfR with coeffs := lowCo },
            highShelfL := { tr.highShelfL with coeffs := highCo },
            highShelfR := { tr.highShelfR with coeffs := highCo } }

/-- Source: `TransformerColoration::processSample`. -/
def TransformerColoration.processSample (tr : TransformerColoration)
    (input : ℚ) : ℚ :=
  if tr.colorAmount < 1/1000 then input
  else
    let satAmount := (1/5) + tr.colorAmount * (2/5)
    let saturation := softSaturate (input * (1 + tr.colorAmount * (1/2))) satAmount
    let thirdHarmonic :=
      softSaturate (input * input * input * (1/10) * tr.colorAmount) (1/2)
    let sat2 := saturation + thirdHarmonic
    let sat3 := sat2 * ((19/20) / (1 + tr.colorAmount * (1/5)))
    let wetAmount := tr.colorAmount * (1/2)
    input * (1 - wetAmount) + sat3 * wetAmount

/-- Source: `TransformerColoration::processBlock`: bypass below `color = 0.001`;
otherwise per-sample saturation followed by the two shelving filters. -/
def TransformerColoration.processBlock (tr : TransformerColoration)
    (buffer : List (ℚ × ℚ)) : TransformerColoration × List (ℚ × ℚ) :=
  if tr.colorAmount < 1/1000 then (tr, buffer)
  else
    let sat := buffer.map (fun p => (tr.processSample p.1, tr.processSample p.2))
    let ls1 := tr.lowShelfL.processList (sat.map Prod.fst)
    let ls2 := tr.lowShelfR.processList (sat.map Prod.snd)
    let hs1 := tr.highShelfL.processList ls1.2
    let hs2 := tr.highShelfR.processList ls2.2
    ({ tr with lowShelfL := ls1.1, lowShelfR := ls2.1,
               highShelfL := hs1.1, highShelfR := hs2.1 },
     hs1.2.zip hs2.2)

/-- C8: with `drive = 0` the tube stage's `processBlock` returns the buffer
bit-identical and leaves the whole stage state (including all filter
states) untouched; likewise the transformer stage with color amount `0`. -/
theorem saturation_bypass_at_zero (L : RealFns) (t : TubeSaturation)
    (tr : TransformerColoration) (buffer : List (ℚ × ℚ))
    (ht : t.drive = 0) (htr : tr.colorAmount = 0) :
    t.processBlock L buffer = (t, buffer)
    ∧ tr.processBlock buffer = (tr, buffer) := by
  constructor
  · rw [TubeSaturation.processBlock, if_pos (by rw [ht]; norm_num)]
  · rw [TransformerColoration.processBlock, if_pos (by rw [htr]; norm_num)]

/-- Witness for C8: default-constructed stages (`drive = 0`,
`colorAmount = 0`) pass a concrete two-sample buffer through unchanged. -/
theorem saturation_bypass_at_zero_witness :
    ({} : TubeSaturation).processBlock zeroFns [(1, 2), (3, -4)]
        = ({}, [(1, 2), (3, -4)])
    ∧ ({} : TransformerColoration).processBlock [(1, 2), (3, -4)]
        = ({}, [(1, 2), (3, -4)]) :=
  saturation_bypass_at_zero zeroFns {} {} [(1, 2), (3, -4)] rfl rfl

/-! ## Parameter smoothing (juce::SmoothedValue, linear) -/

structure Smoothed where
  current : ℚ := 0
  target : ℚ := 0
  countdown : ℕ := 0
  stepsToTarget : ℕ := 0
  step : ℚ := 0
deriving DecidableEq, Repr

/-- Source: `SmoothedValue::setCurrentAndTargetValue`. -/
def Smoothed.setCurrentAndTargetValue (s : Smoothed) (v : ℚ) : Smoothed :=
  { s with current := v, target := v, countdown := 0 }

/-- Source: `SmoothedValue::setTargetValue`: no-op when the target is unchanged;
jumps directly when no ramp is configured; otherwise restarts the ramp. -/
def Smoothed.setTargetValue (s : Smoothed) (v : ℚ) : Smoothed :=
  if v = s.target then s
  else if s.stepsToTarget = 0 then s.setCurrentAndTargetValue v
  else { s with target := v, countdown := s.stepsToTarget,
                step := (v - s.current) / (s.stepsToTarget : ℚ) }

/-- Source: `SmoothedValue::skip (n)`: lands on the target if the ramp finishes
within `n` samples, otherwise advances the ramp by `n` steps. -/
def Smoothed.skip (s : Smoothed) (numSamples : ℕ) : Smoothed :=
  if s.countdown ≤ numSamples then s.setCurrentAndTargetValue s.target
  else { s with current := s.current + s.step * (numSamples : ℚ),
                countdown := s.countdown - numSamples }

/-- Source: `SmoothedValue::getNextValue`: returns the target once the ramp is
finished, otherwise advances one step. -/
def Smoothed.getNext (s : Smoothed) : ℚ × Smoothed :=
  if s.countdown = 0 then (s.target, s)
  else
    let c := s.current + s.step
    (c, { s with current := c, countdown := s.countdown - 1 })

/-! ## FatPressorAudioProcessor::processBlock (src/unnamed/part_001)

The per-block orchestrator, modelled on the stereo path: a buffer is a
list of (left, right) sample pairs.  The seven parameter values are the
snapshot read from the host atomics during the call. -/

structure Params where
  threshold : ℚ
  ratio : ℚ
  attack : ℚ
  release : ℚ
  fat : ℚ
  output : ℚ
  mix : ℚ
deriving DecidableEq, Repr

structure Processor where
  thresholdSmoothed : Smoothed := {}
  ratioSmoothed : Smoothed := {}
  attackSmoothed : Smoothed := {}
  releaseSmoothed : Smoothed := {}
  fatSmoothed : Smoothed := {}
  outputSmoothed : Smoothed := {}
  mixSmoothed : Smoothed := {}
  sidechainDetector : SidechainDetector := {}
  envelopeFollower : EnvelopeFollower := {}
  gainComputer : GainComputer := {}
  tubeSaturation : TubeSaturation := {}
  transformerColoration : TransformerColoration := {}
  inputLevelL : ℚ := -60
  inputLevelR : ℚ := -60
  outputLevelL : ℚ := -60
  outputLevelR : ℚ := -60
  gainReduction : ℚ := 0
deriving DecidableEq, Repr

/-- Source: `AudioBuffer::getMagnitude` over one channel: the maximum absolute
sample value (0 for an empty range). -/
def magnitude (l : List ℚ) : ℚ := l.foldl (fun m x => jmax m |x|) 0

/-- The per-sample compression loop of `processBlock`: sidechain detection,
envelope following, gain computation, peak-gain-reduction tracking, and
application of the linear gain to both channels. -/
def compressLoop (L : RealFns) :
    SidechainDetector → EnvelopeFollower → GainComputer → ℚ → List (ℚ × ℚ) →
      SidechainDetector × EnvelopeFollower × ℚ × List (ℚ × ℚ)
  | det, env, _, peak, [] => (det, env, peak, [])
  | det, env, gc, peak, (l, r) :: rest =>
      let d1 := det.processSample L l r
      let e1 := env.processSample L d1.2
      let grDb := gc.computeGainReduction e1.2
      let peak1 := if grDb < peak then grDb else peak
      let grLinear := decibelsToGainDefault L grDb
      let out := (l * grLinear, r * grLinear)
      let res := compressLoop L d1.1 e1.1 gc peak1 rest
      (res.1, res.2.1, res.2.2.1, out :: res.2.2.2)

/-- The output-gain/mix loop of `processBlock` over one channel: for each
sample, pull the next smoothed output gain (dB) and mix percentage, apply
the output gain to the wet sample, and cross-fade with the dry sample.
Input pairs are `(wet, dry)`. -/
def mixChannel (L : RealFns) :
    Smoothed → Smoothed → List (ℚ × ℚ) → Smoothed × Smoothed × List ℚ
  | oS, mS, [] => (oS, mS, [])
  | oS, mS, (wet, dry) :: rest =>
      let og := oS.getNext
      let mg := mS.getNext
      let outputGain := decibelsToGainDefault L og.1
      let mixAmount := mg.1 / 100
      let wetSample := wet * outputGain
      let outSample := wetSample * mixAmount + dry * (1 - mixAmount)
      let res := mixChannel L og.2 mg.2 rest
      (res.1, res.2.1, outSample :: res.2.2)

/-- Step 4 of `processBlock` (output gain and mix), channel-outer exactly
as in the code: process the left channel through `mixChannel`, then reset
the output/mix smoothers to the raw parameter values, process the right
channel, and reset again.  Returns the final smoother states and the output
buffer. -/
def outputMixStage (L : RealFns) (oS mS : Smoothed) (outputRaw mixRaw : ℚ)
    (wet dry : List (ℚ × ℚ)) : Smoothed × Smoothed × List (ℚ × ℚ) :=
  let mixResL := mixChannel L oS mS ((wet.map Prod.fst).zip (dry.map Prod.fst))
  let ouS1 := mixResL.1.setCurrentAndTargetValue outputRaw
  let miS1 := mixResL.2.1.setCurrentAndTargetValue mixRaw
  let mixResR := mixChannel L ouS1 miS1 ((wet.map Prod.snd).zip (dry.map Prod.snd))
  let ouS2 := mixResR.1.setCurrentAndTargetValue outputRaw
  let miS2 := mixResR.2.1.setCurrentAndTargetValue mixRaw
  (ouS2, miS2, mixResL.2.2.zip mixResR.2.2)

/-- Source: `FatPressorAudioProcessor::processBlock` (stereo path): updates the
smoothing targets, measures the input meters, copies the dry buffer, skips
the five compression-parameter smoothers to their targets, reconfigures the
DSP components from the smoothed values, runs tube saturation, the
per-sample compression loop, transformer coloration, then the channel-wise
output-gain/mix loop (resetting the output/mix smoothers to the raw
parameter values after each channel), and finally measures the output
meters. -/
def processBlock (L : RealFns) (P : Params) (proc : Processor)
    (buffer : List (ℚ × ℚ)) : Processor × List (ℚ × ℚ) :=
  let numSamples := buffer.length
  let thS0 := proc.thresholdSmoothed.setTargetValue P.threshold
  let raS0 := proc.ratioSmoothed.setTargetValue P.ratio
  let atS0 := proc.attackSmoothed.setTargetValue P.attack
  let reS0 := proc.releaseSmoothed.setTargetValue P.release
  let faS0 := proc.fatSmoothed.setTargetValue P.fat
  let ouS0 := proc.outputSmoothed.setTargetValue P.output
  let miS0 := proc.mixSmoothed.setTargetValue P.mix
  let inDbL := gainToDecibels L (-60) (magnitude (buffer.map Prod.fst))
  let inDbR := gainToDecibels L (-60) (magnitude (buffer.map Prod.snd))
  let dryBuffer := buffer
  let thS1 := thS0.skip numSamples
  let raS1 := raS0.skip numSamples
  let atS1 := atS0.skip numSamples
  let reS1 := reS0.skip numSamples
  let faS1 := faS0.skip numSamples
  let currentThreshold := thS1.current
  let currentRatio := raS1.current
  let currentAttack := atS1.current
  let currentRelease := reS1.current
  let currentFat := faS1.current / 100
  let env0 := (proc.envelopeFollower.setAttackMs L currentAttack).setReleaseMs
                L currentRelease
  let gc0 := (proc.gainComputer.setThreshold currentThreshold).setRatio currentRatio
  let tube0 := proc.tubeSaturation.setDrive currentFat
  let trans0 := proc.transformerColoration.setAmount L currentFat
  let tubeRes := tube0.processBlock L buffer
  let comp := compressLoop L proc.sidechainDetector env0 gc0 0 tubeRes.2
  let grStored := -comp.2.2.1
  let transRes := trans0.processBlock comp.2.2.2
  let mixRes := outputMixStage L ouS0 miS0 P.output P.mix transRes.2 dryBuffer
  let outBuffer := mixRes.2.2
  let outDbL := gainToDecibels L (-60) (magnitude (outBuffer.map Prod.fst))
  let outDbR := gainToDecibels L (-60) (magnitude (outBuffer.map Prod.snd))
  ({ proc with
      thresholdSmoothed := thS1, ratioSmoothed := raS1, attackSmoothed := atS1,
      releaseSmoothed := reS1, fatSmoothed := faS1,
      outputSmoothed := mixRes.1, mixSmoothed := mixRes.2.1,
      sidechainDetector := comp.1,
      envelopeFollower := comp.2.1,
      gainComputer := gc0,
      tubeSaturation := tubeRes.1,
      transformerColoration := transRes.1,
      inputLevelL := inDbL, inputLevelR := inDbR,
      outputLevelL := outDbL, outputLevelR := outDbR,
      gainReduction := grStored },
   outBuffer)

theorem compressLoop_peak_le (L : RealFns) :
    ∀ (buffer : List (ℚ × ℚ)) (det : SidechainDetector)
      (env : EnvelopeFollower) (gc : GainComputer) (peak : ℚ),
      (compressLoop L det env gc peak buffer).2.2.1 ≤ peak := by
  intro buffer
  induction buffer with
  | nil => intro det env gc peak; simp [compressLoop]
  | cons p rest ih =>
      intro det env gc peak
      obtain ⟨l, r⟩ := p
      rw [compressLoop]
      refine le_trans (ih _ _ _ _) ?_
      split <;> linarith

/-- C9: after any `processBlock` call the four level meters are at or above
the `-60` dB floor and the `gainReduction` meter is non-negative (it stores
the negation of the most negative per-sample gain reduction tracked by the
compression loop, whose tracker starts at `0` and only decreases). -/
theorem processBlock_meter_bounds (L : RealFns) (P : Params) (proc : Processor)
    (buffer : List (ℚ × ℚ)) :
    -60 ≤ (processBlock L P proc buffer).1.inputLevelL
    ∧ -60 ≤ (processBlock L P proc buffer).1.inputLevelR
    ∧ -60 ≤ (processBlock L P proc buffer).1.outputLevelL
    ∧ -60 ≤ (processBlock L P proc buffer).1.outputLevelR
    ∧ 0 ≤ (processBlock L P proc buffer).1.gainReduction := by
  refine ⟨?_, ?_, ?_, ?_, ?_⟩ <;> simp only [processBlock]
  · exact gainToDecibels_ge_floor _ _ _
  · exact gainToDecibels_ge_floor _ _ _
  · exact gainToDecibels_ge_floor _ _ _
  · exact gainToDecibels_ge_floor _ _ _
  · have := compressLoop_peak_le L
      ((proc.tubeSaturation.setDrive
          (((proc.fatSmoothed.setTargetValue P.fat).skip buffer.length).current
            / 100)).processBlock L buffer).2
      proc.sidechainDetector
      ((proc.envelopeFollower.setAttackMs L
          (((proc.attackSmoothed.setTargetValue P.attack).skip
              buffer.length).current)).setReleaseMs L
        (((proc.releaseSmoothed.setTargetValue P.release).skip
            buffer.length).current))
      ((proc.gainComputer.setThreshold
          (((proc.thresholdSmoothed.setTargetValue P.threshold).skip
              buffer.length).current)).setRatio
        (((proc.ratioSmoothed.setTargetValue P.ratio).skip
            buffer.length).current))
      0
    linarith

theorem compressLoop_length (L : RealFns) :
    ∀ (buffer : List (ℚ × ℚ)) (det : SidechainDetector)
      (env : EnvelopeFollower) (gc : GainComputer) (peak : ℚ),
      (compressLoop L det env gc peak buffer).2.2.2.length = buffer.length := by
  intro buffer
  induction buffer with
  | nil => intro det env gc peak; rfl
  | cons p rest ih =>
      intro det env gc peak
      obtain ⟨l, r⟩ := p
      rw [compressLoop]
      simp [ih]

theorem tubeSaturation_processBlock_len (L : RealFns) (t : TubeSaturation)
    (buffer : List (ℚ × ℚ)) :
    (t.processBlock L buffer).2.length = buffer.length := by
  rw [TubeSaturation.processBlock]
  split
  · rfl
  · simp [Biquad.processList_length]

theorem transformerColoration_processBlock_len (tr : TransformerColoration)
    (buffer : List (ℚ × ℚ)) :
    (tr.processBlock buffer).2.length = buffer.length := by
  rw [TransformerColoration.processBlock]
  split
  · rfl
  · simp [Biquad.processList_length]

theorem map_snd_zip_eq : ∀ (a b : List ℚ), a.length = b.length →
    (a.zip b).map Prod.snd = b := by
  intro a
  induction a with
  | nil =>
      intro b h
      cases b with
      | nil => rfl
      | cons y ys => simp at h
  | cons x xs ih =>
      intro b h
      cases b with
      | nil => simp at h
      | cons y ys =>
          simp only [List.zip_cons_cons, List.map_cons]
          rw [ih ys (by simpa using h)]

theorem zip_map_fst_map_snd (l : List (ℚ × ℚ)) :
    (l.map Prod.fst).zip (l.map Prod.snd) = l := by
  induction l with
  | nil => rfl
  | cons p t ih => obtain ⟨a, b⟩ := p; simp [ih]

theorem mixChannel_settled_zero (L : RealFns) :
    ∀ (pairs : List (ℚ × ℚ)) (oS mS : Smoothed),
      mS.target = 0 → mS.countdown = 0 →
      (mixChannel L oS mS pairs).2.1 = mS
      ∧ (mixChannel L oS mS pairs).2.2 = pairs.map Prod.snd := by
  intro pairs
  induction pairs with
  | nil => intro oS mS _ _; simp [mixChannel]
  | cons p rest ih =>
      intro oS mS h1 h2
      obtain ⟨w, d⟩ := p
      have hnext : mS.getNext = (0, mS) := by
        rw [Smoothed.getNext, if_pos h2, h1]
      obtain ⟨ihm, ihl⟩ := ih oS.getNext.2 mS h1 h2
      rw [mixChannel]
      simp only [hnext]
      simp [ihm, ihl]

theorem mixChannel_settled_state (L : RealFns) (pairs : List (ℚ × ℚ))
    (oS mS : Smoothed) (h1 : mS.target = 0) (h2 : mS.countdown = 0) :
    (mixChannel L oS mS pairs).2.1 = mS :=
  (mixChannel_settled_zero L pairs oS mS h1 h2).1

theorem mixChannel_settled_out (L : RealFns) (pairs : List (ℚ × ℚ))
    (oS mS : Smoothed) (h1 : mS.target = 0) (h2 : mS.countdown = 0) :
    (mixChannel L oS mS pairs).2.2 = pairs.map Prod.snd :=
  (mixChannel_settled_zero L pairs oS mS h1 h2).2

theorem outputMixStage_mix_zero (L : RealFns) (oS mS : Smoothed)
    (outputRaw : ℚ) (wet dry : List (ℚ × ℚ)) (hlen : wet.length = dry.length)
    (h1 : mS.target = 0) (h2 : mS.countdown = 0) :
    (outputMixStage L oS mS outputRaw 0 wet dry).2.2 = dry := by
  rw [outputMixStage]
  simp only [mixChannel_settled_state L _ _ _ h1 h2,
    mixChannel_settled_out L _ _ _ h1 h2]
  have h1' : (mS.setCurrentAndTargetValue 0).target = 0 := rfl
  have h2' : (mS.setCurrentAndTargetValue 0).countdown = 0 := rfl
  simp only [mixChannel_settled_out L _ _ _ h1' h2']
  rw [map_snd_zip_eq _ _ (by simp [hlen]), map_snd_zip_eq _ _ (by simp [hlen])]
  exact zip_map_fst_map_snd dry

/-- C7: with the mix parameter at 0 % and its smoother settled at 0, the
output block of `processBlock` equals the dry copy of the input block
captured at the start of the call, sample for sample and channel for
channel, for all values of the other parameters and all processor state. -/
theorem processBlock_mix_zero_dry (L : RealFns) (P : Params) (proc : Processor)
    (buffer : List (ℚ × ℚ)) (hP : P.mix = 0)
    (ht : proc.mixSmoothed.target = 0) (hcd : proc.mixSmoothed.countdown = 0) :
    (processBlock L P proc buffer).2 = buffer := by
  have hmiS0 : proc.mixSmoothed.setTargetValue 0 = proc.mixSmoothed := by
    rw [Smoothed.setTargetValue, if_pos ht.symm]
  simp only [processBlock, hP, hmiS0]
  refine outputMixStage_mix_zero L _ _ _ _ _ ?_ ht hcd
  simp [tubeSaturation_processBlock_len, compressLoop_length,
    transformerColoration_processBlock_len]

/-- Witness for C7: default processor state (mix smoother settled at 0),
all parameters 0 (mix = 0 %), concrete one-sample buffer. -/
theorem processBlock_mix_zero_dry_witness :
    (processBlock zeroFns ⟨0, 0, 0, 0, 0, 0, 0⟩ {} [(1, 2)]).2 = [(1, 2)] :=
  processBlock_mix_zero_dry zeroFns ⟨0, 0, 0, 0, 0, 0, 0⟩ {} [(1, 2)] rfl rfl rfl

theorem setAttackMs_state (L : RealFns) (e : EnvelopeFollower) (v : ℚ) :
    (e.setAttackMs L v).envelope = e.envelope
    ∧ (e.setAttackMs L v).peakGainReduction = e.peakGainReduction
    ∧ (e.setAttackMs L v).inSlowRelease = e.inSlowRelease := by
  rw [EnvelopeFollower.setAttackMs, EnvelopeFollower.updateCoefficients]
  split <;> exact ⟨rfl, rfl, rfl⟩

theorem setReleaseMs_state (L : RealFns) (e : EnvelopeFollower) (v : ℚ) :
    (e.setReleaseMs L v).envelope = e.envelope
    ∧ (e.setReleaseMs L v).peakGainReduction = e.peakGainReduction
    ∧ (e.setReleaseMs L v).inSlowRelease = e.inSlowRelease := by
  rw [EnvelopeFollower.setReleaseMs, EnvelopeFollower.updateCoefficients]
  split <;> exact ⟨rfl, rfl, rfl⟩

theorem setTargetValue_target (s : Smoothed) (v : ℚ) :
    (s.setTargetValue v).target = v := by
  rw [Smoothed.setTargetValue]
  split
  · next h => exact h.symm
  · split <;> rfl

theorem skip_target (s : Smoothed) (n : ℕ) : (s.skip n).target = s.target := by
  rw [Smoothed.skip]
  split <;> rfl

theorem tube_processBlock_nil (L : RealFns) (t : TubeSaturation) :
    t.processBlock L [] = (t, []) := by
  rw [TubeSaturation.processBlock]
  split
  · rfl
  · simp [Biquad.processList]

theorem transformer_processBlock_nil (tr : TransformerColoration) :
    tr.processBlock [] = (tr, []) := by
  rw [TransformerColoration.processBlock]
  split
  · rfl
  · simp [Biquad.processList]

/-- C6 (counterexample): invoking `processBlock` on a zero-sample block is
not a no-op — with all parameters 0 and a processor whose input-level meter
holds −30 dB, the call overwrites that meter with −60 dB. -/
theorem processBlock_empty_not_noop :
    (processBlock zeroFns ⟨0, 0, 0, 0, 0, 0, 0⟩ { inputLevelL := -30 } []).1.inputLevelL
        = -60
    ∧ ({ inputLevelL := -30 } : Processor).inputLevelL = -30
    ∧ ¬ ((processBlock zeroFns ⟨0, 0, 0, 0, 0, 0, 0⟩
          { inputLevelL := -30 } []).1.inputLevelL
        = ({ inputLevelL := -30 } : Processor).inputLevelL) := by
  refine ⟨?_, rfl, ?_⟩ <;> norm_num [processBlock, magnitude, gainToDecibels]

/-- C6 (amended): on a zero-sample block, `processBlock` leaves the output
buffer empty and all per-sample recursive DSP state untouched (detector
state, envelope/peak/release-stage state, and the internal state of all ten
IIR filters), but it is not a complete no-op: the four level meters are
overwritten with −60 dB (the dB value of an empty block's magnitude), the
gain-reduction meter with 0, the smoothing targets are retargeted to the
current parameter values, and the output/mix smoothers are snapped to the
raw output/mix parameter values. -/
theorem processBlock_empty_block_effects (L : RealFns) (P : Params)
    (proc : Processor) :
    (processBlock L P proc []).2 = []
    ∧ (processBlock L P proc []).1.inputLevelL = -60
    ∧ (processBlock L P proc []).1.inputLevelR = -60
    ∧ (processBlock L P proc []).1.outputLevelL = -60
    ∧ (processBlock L P proc []).1.outputLevelR = -60
    ∧ (processBlock L P proc []).1.gainReduction = 0
    ∧ (processBlock L P proc []).1.sidechainDetector = proc.sidechainDetector
    ∧ (processBlock L P proc []).1.envelopeFollower.envelope
        = proc.envelopeFollower.envelope
    ∧ (processBlock L P proc []).1.envelopeFollower.peakGainReduction
        = proc.envelopeFollower.peakGainReduction
    ∧ (processBlock L P proc []).1.envelopeFollower.inSlowRelease
        = proc.envelopeFollower.inSlowRelease
    ∧ (processBlock L P proc []).1.tubeSaturation.dcBlockerL.state
        = proc.tubeSaturation.dcBlockerL.state
    ∧ (processBlock L P proc []).1.tubeSaturation.dcBlockerR.state
        = proc.tubeSaturation.dcBlockerR.state
    ∧ (processBlock L P proc []).1.tubeSaturation.lowpassForSatL.state
        = proc.tubeSaturation.lowpassForSatL.state
    ∧ (processBlock L P proc []).1.tubeSaturation.lowpassForSatR.state
        = proc.tubeSaturation.lowpassForSatR.state
    ∧ (processBlock L P proc []).1.tubeSaturation.highpassForCleanL.state
        = proc.tubeSaturation.highpassForCleanL.state
    ∧ (processBlock L P proc []).1.tubeSaturation.highpassForCleanR.state
        = proc.tubeSaturation.highpassForCleanR.state
    ∧ (processBlock L P proc []).1.transformerColoration.lowShelfL.state
        = proc.transformerColoration.lowShelfL.state
    ∧ (processBlock L P proc []).1.transformerColoration.lowShelfR.state
        = proc.transformerColoration.lowShelfR.state
    ∧ (processBlock L P proc []).1.transformerColoration.highShelfL.state
        = proc.transformerColoration.highShelfL.state
    ∧ (processBlock L P proc []).1.transformerColoration.highShelfR.state
        = proc.transformerColoration.highShelfR.state
    ∧ (processBlock L P proc []).1.thresholdSmoothed.target = P.threshold
    ∧ (processBlock L P proc []).1.outputSmoothed.current = P.output
    ∧ (processBlock L P proc []).1.outputSmoothed.target = P.output
    ∧ (processBlock L P proc []).1.mixSmoothed.current = P.mix
    ∧ (processBlock L P proc []).1.mixSmoothed.target = P.mix := by
  refine ⟨?_, ?_, ?_, ?_, ?_, ?_, ?_, ?_, ?_, ?_, ?_, ?_, ?_, ?_, ?_, ?_, ?_,
    ?_, ?_, ?_, ?_, ?_, ?_, ?_, ?_⟩ <;>
    simp [processBlock, tube_processBlock_nil, transformer_processBlock_nil,
      compressLoop, outputMixStage, mixChannel, magnitude, gainToDecibels,
      setAttackMs_state, setReleaseMs_state, setTargetValue_target, skip_target,
      Smoothed.setCurrentAndTargetValue, TubeSaturation.setDrive,
      TransformerColoration.setAmount, Biquad.state]
